import Mathlib

/-!
Verification of the packing-slip parser pipeline.

The repository is a Flask + React application that converts Canadian
packing-slip PDFs into CSV.  The browser front end (frontend/src/App.js and
its unnamed variant) is present in the sources and is embedded directly
below.  The back-end pipeline (app.py: validator, derivation engine, CSV
assembler, extraction orchestrator, request handler) is not among the
source files, so those components are modelled from the specification, as
marked on each definition.

Strings are modelled as lists of characters (List Char); `str` converts a
Lean string literal.  Exact rational arithmetic uses ℚ, with the weight
constant 4.5 represented exactly as 9/2.
-/

namespace PackingSlip

/-- Convert a string literal to the character-list representation used
throughout this development. -/
def str (s : String) : List Char := s.toList

/-! ### Character classes -/

/-- Uppercase Latin letter, code points 65–90. -/
def isAZ (c : Char) : Bool := 65 ≤ c.toNat && c.toNat ≤ 90

/-- ASCII digit, code points 48–57. -/
def isDigitC (c : Char) : Bool := 48 ≤ c.toNat && c.toNat ≤ 57

/-- Whitespace as matched by the regex class \s: space, tab, newline,
carriage return. -/
def isSpaceC (c : Char) : Bool :=
  c.toNat = 32 || c.toNat = 9 || c.toNat = 10 || c.toNat = 13

/-- ASCII uppercasing of a single character, as done by Python's
str.upper on the ASCII range. -/
def upChar (c : Char) : Char :=
  if 97 ≤ c.toNat ∧ c.toNat ≤ 122 then Char.ofNat (c.toNat - 32) else c

/-! ### Postal-code validation

Modelled from the spec: the back-end validator (app.py, not among the
source files) normalizes whitespace and case of the candidate postal code
and requires the result to match the anchored Canadian pattern
letter digit letter, optional space, digit letter digit. -/

/-- Modelled from the spec: whitespace/case normalization of a candidate
postal code — uppercase every character, then drop all whitespace. -/
def normalizePostal (s : List Char) : List Char :=
  (s.map upChar).filter (fun c => !(isSpaceC c))

/-- The shape of a normalized (whitespace-free, uppercase) Canadian postal
code: exactly six characters, alternating uppercase letter and digit. -/
def isPostalShape : List Char → Bool
  | [a, b, c, d, e, f] =>
    isAZ a && isDigitC b && isAZ c && isDigitC d && isAZ e && isDigitC f
  | _ => false

/-- Direct transcription of the anchored regex from the spec: an uppercase
letter, a digit, an uppercase letter, an optional whitespace character, a
digit, an uppercase letter, a digit, and nothing else. -/
def matchesPostalRegex : List Char → Bool
  | [a, b, c, d, e, f] =>
    isAZ a && isDigitC b && isAZ c && isDigitC d && isAZ e && isDigitC f
  | [a, b, c, w, d, e, f] =>
    isAZ a && isDigitC b && isAZ c && isSpaceC w && isDigitC d && isAZ e && isDigitC f
  | _ => false

/-- Modelled from the spec: render a six-character normalized postal code
in the canonical display form with the single internal space. -/
def renderPostal (l : List Char) : List Char :=
  match l with
  | [a, b, c, d, e, f] => [a, b, c, ' ', d, e, f]
  | l => l

/-- Modelled from the spec: validate a candidate postal-code string,
returning the canonical form on success and nothing on failure. -/
def validatePostalCode (s : List Char) : Option (List Char) :=
  if isPostalShape (normalizePostal s) then
    some (renderPostal (normalizePostal s))
  else
    none

/-! ### Record schema and validator

Modelled from the spec §3/§4.2: the canonical record shapes and the
field-by-field validation rules, checked fail-fast in a fixed order. -/

/-- The names of the candidate-record fields subject to validation, in the
spec's fixed check order (see checkOrder). -/
inductive FieldName
  | customer_id
  | ship_to_address_lines
  | postal_code
  | province
  | phone
  | quantity
deriving DecidableEq, Repr

/-- A single-field validation failure: the first failing field together
with a human-readable reason. -/
structure FieldValidationError where
  field : FieldName
  reason : List Char
deriving DecidableEq, Repr

/-- Modelled from the spec §3: the raw, possibly malformed record returned
by the external extraction collaborator.  The numeric quantity is modelled
as an exact rational so that fractional candidate values are expressible. -/
structure CandidateRecord where
  customer_id : List Char
  company_name : List Char
  ship_to_address_lines : List (List Char)
  city : List Char
  province : List Char
  postal_code : List Char
  phone : List Char
  quantity : ℚ
  service_type : List Char
deriving DecidableEq, Repr

/-- Modelled from the spec §3: a record all of whose fields passed the
format checks; customer_id and phone hold the stripped digit strings, the
postal code is canonical and the quantity is a non-negative integer. -/
structure ValidatedRecord where
  customer_id : List Char
  company_name : List Char
  ship_to_address_lines : List (List Char)
  city : List Char
  province : List Char
  postal_code : List Char
  phone : List Char
  quantity : ℕ
  service_type : List Char
deriving DecidableEq, Repr

/-- The 13 recognized Canadian province and territory codes. -/
def provinceCodes : List (List Char) :=
  [str "AB", str "BC", str "MB", str "NB", str "NL", str "NS", str "NT",
   str "NU", str "ON", str "PE", str "QC", str "SK", str "YT"]

/-- Rule 1: stripping non-digits from customer_id must leave exactly 10
digits. -/
def checkCustomerId (r : CandidateRecord) : Bool :=
  (r.customer_id.filter isDigitC).length == 10

/-- Rule 2: at least one non-empty ship-to address line. -/
def checkAddress (r : CandidateRecord) : Bool :=
  r.ship_to_address_lines.any (fun l => !(l.isEmpty))

/-- Rule 3: the normalized postal code must match the Canadian pattern. -/
def checkPostal (r : CandidateRecord) : Bool :=
  isPostalShape (normalizePostal r.postal_code)

/-- Rule 4: the province must be one of the 13 recognized codes. -/
def checkProvince (r : CandidateRecord) : Bool :=
  provinceCodes.contains r.province

/-- Rule 5: the phone must contain at least 10 digits once formatting
characters are stripped. -/
def checkPhone (r : CandidateRecord) : Bool :=
  10 ≤ (r.phone.filter isDigitC).length

/-- Rule 6: the quantity must be a non-negative integer; fractional or
negative values fail. -/
def checkQuantity (r : CandidateRecord) : Bool :=
  decide (0 ≤ r.quantity) && r.quantity.den == 1

/-- The per-field validity predicate, indexed by field name. -/
def fieldOK (r : CandidateRecord) : FieldName → Bool
  | .customer_id => checkCustomerId r
  | .ship_to_address_lines => checkAddress r
  | .postal_code => checkPostal r
  | .province => checkProvince r
  | .phone => checkPhone r
  | .quantity => checkQuantity r

/-- The fixed order in which the validator checks the fields; it
determines which error a malformed record reports first. -/
def checkOrder : List FieldName :=
  [.customer_id, .ship_to_address_lines, .postal_code, .province, .phone,
   .quantity]

/-- Build the validated record once all checks have passed: stripped
digits for customer_id and phone, canonical postal code, integral
quantity. -/
def mkValidated (r : CandidateRecord) : ValidatedRecord where
  customer_id := r.customer_id.filter isDigitC
  company_name := r.company_name
  ship_to_address_lines := r.ship_to_address_lines
  city := r.city
  province := r.province
  postal_code := renderPostal (normalizePostal r.postal_code)
  phone := r.phone.filter isDigitC
  quantity := r.quantity.num.toNat
  service_type := r.service_type

/-- Modelled from the spec §4.2: validate a candidate record fail-fast,
checking the fields in the fixed order and reporting only the first
failure. -/
def validate (r : CandidateRecord) : Except FieldValidationError ValidatedRecord :=
  if checkCustomerId r then
    if checkAddress r then
      if checkPostal r then
        if checkProvince r then
          if checkPhone r then
            if checkQuantity r then
              .ok (mkValidated r)
            else
              .error ⟨.quantity, str "quantity must be a non-negative integer"⟩
          else
            .error ⟨.phone, str "phone must contain at least 10 digits"⟩
        else
          .error ⟨.province, str "unrecognized province code"⟩
      else
        .error ⟨.postal_code, str "postal code must match the Canadian pattern"⟩
    else
      .error ⟨.ship_to_address_lines, str "need at least one non-empty address line"⟩
  else
    .error ⟨.customer_id, str "customer_id must contain exactly 10 digits"⟩

/-! ### Derivation engine

Modelled from the spec §4.4 and README: packages = 2 × quantity and
total_weight_kg = packages × 4.5, with 4.5 represented exactly as the
rational 9/2. -/

/-- The configurable packages-per-quantity multiplier. -/
def packagesPerQuantity : ℕ := 2

/-- The configurable weight of one package in kilograms, exactly 4.5. -/
def kgPerPackage : ℚ := 9 / 2

/-- Modelled from the spec §3: a validated record extended with the two
derived fields. -/
structure DerivedRecord extends ValidatedRecord where
  packages : ℕ
  total_weight_kg : ℚ
deriving DecidableEq, Repr

/-- Modelled from the spec §4.4: the derivation engine, a total function
with no failure path. -/
def derive (v : ValidatedRecord) : DerivedRecord :=
  { v with
    packages := packagesPerQuantity * v.quantity
    total_weight_kg := ((packagesPerQuantity * v.quantity : ℕ) : ℚ) * kgPerPackage }

/-! ### CSV assembler

Modelled from the spec §4.5: fixed column order, header always present,
one data row per derived record. -/

/-- The fixed, versioned CSV column header. -/
def csvHeader : List (List Char) :=
  [str "customer_id", str "company_name", str "ship_to_address_lines",
   str "city", str "province", str "postal_code", str "phone",
   str "quantity", str "packages", str "total_weight_kg", str "service_type"]

/-- Render one derived record as one CSV row, in the fixed column order;
the address lines are flattened into a single cell. -/
def recordRow (d : DerivedRecord) : List (List Char) :=
  [d.customer_id, d.company_name,
   List.intercalate (str " ") d.ship_to_address_lines,
   d.city, d.province, d.postal_code, d.phone,
   str (toString d.quantity), str (toString d.packages),
   str (toString d.total_weight_kg), d.service_type]

/-- Modelled from the spec §4.5: the CSV assembler — the header row
followed by one row per derived record, in input order. -/
def assemble (ds : List DerivedRecord) : List (List (List Char)) :=
  csvHeader :: ds.map recordRow

/-! ### Pipeline, error taxonomy and response framing

Modelled from the spec §4.3, §4.6, §6 and §7. -/

/-- Modelled from the spec §7: the error taxonomy surfaced by the request
handler. -/
inductive PipelineError
  | documentFormat (reason : List Char)
  | extraction (reason : List Char)
  | noValidRecords
deriving DecidableEq, Repr

/-- Modelled from the spec §7: the HTTP status code for each failure
class — user errors are 4xx, infrastructure failures 5xx. -/
def httpStatus : PipelineError → ℕ
  | .documentFormat _ => 400
  | .extraction _ => 502
  | .noValidRecords => 422

/-- Modelled from the spec §4.3: run one candidate through the validator
with the bounded per-record retry — at most 2 validation attempts in
total.  retryFix models the collaborator's corrected candidate in answer
to the refined retry prompt; a candidate that still fails is dropped. -/
def processCandidate (retryFix : CandidateRecord → FieldValidationError → CandidateRecord)
    (c : CandidateRecord) : Option ValidatedRecord :=
  match validate c with
  | .ok v => some v
  | .error e =>
    match validate (retryFix c e) with
    | .ok v => some v
    | .error _ => none

/-- Modelled from the spec §4.3/§4.5: validate every candidate (with the
bounded per-record retry), fail with NoValidRecordsError when none
survives, otherwise derive and assemble the CSV from the survivors in
input order. -/
def runPipeline (retryFix : CandidateRecord → FieldValidationError → CandidateRecord)
    (cs : List CandidateRecord) : Except PipelineError (List (List (List Char))) :=
  match cs.filterMap (processCandidate retryFix) with
  | [] => .error .noValidRecords
  | v :: vs => .ok (assemble ((v :: vs).map derive))

/-- An HTTP response body: either CSV bytes or a JSON object carrying a
single error field. -/
inductive HttpBody
  | csv (doc : List (List (List Char)))
  | jsonError (message : List Char)
deriving DecidableEq, Repr

/-- An HTTP response: status code and body. -/
structure HttpResponse where
  status : ℕ
  body : HttpBody
deriving DecidableEq, Repr

/-- The user-facing message for each failure class. -/
def errorMessage : PipelineError → List Char
  | .documentFormat r => r
  | .extraction r => r
  | .noValidRecords => str "could not extract any valid records"

/-- Modelled from the spec §6: response framing by the request handler —
200 with the CSV on success, a non-200 status with a JSON error body on
every failure. -/
def respond (result : Except PipelineError (List (List (List Char)))) : HttpResponse :=
  match result with
  | .ok doc => ⟨200, .csv doc⟩
  | .error e => ⟨httpStatus e, .jsonError (errorMessage e)⟩

/-! ### Extraction orchestrator retry loop

Modelled from the spec §4.3/§9: the document-level retry is a bounded
state loop (attempt counter), never unbounded recursion. -/

/-- A response of the external extraction collaborator: either a list of
candidate records, or a response that could not be parsed as the expected
JSON shape. -/
inductive CollabResponse
  | parsed (records : List CandidateRecord)
  | malformed (reason : List Char)

/-- The configurable document-level retry bound: at most 2 retries after
the initial attempt. -/
def maxExtractionRetries : ℕ := 2

/-- Modelled from the spec §4.3: the bounded retry loop.  oracle gives the
collaborator's response to attempt number n (each retry re-prompts, so
responses may differ by attempt); the loop recurses structurally on the
remaining-retries counter, so it terminates on every input. -/
def attemptExtraction (oracle : ℕ → CollabResponse) :
    ℕ → ℕ → Except (List Char) (List CandidateRecord)
  | attempt, 0 =>
    match oracle attempt with
    | .parsed cs => .ok cs
    | .malformed reason => .error reason
  | attempt, n + 1 =>
    match oracle attempt with
    | .parsed cs => .ok cs
    | .malformed _ => attemptExtraction oracle (attempt + 1) n

/-- Modelled from the spec §4.3: document-level extraction — the initial
attempt plus at most maxExtractionRetries retries, after which the last
parse-failure reason is surfaced as the ExtractionError. -/
def extract_records (oracle : ℕ → CollabResponse) :
    Except (List Char) (List CandidateRecord) :=
  attemptExtraction oracle 0 maxExtractionRetries

/-! ### Front-end state model

Embedded from frontend/src/App.js and its unnamed variant; the drop,
file-input and upload handlers are identical in both versions on the
aspects modelled here.  The React state triple (file, isLoading,
dragOver) becomes an explicit state record and the imperative handlers
become state transformers that also emit their side effects. -/

/-- A browser File object as seen by the handlers: name, declared MIME
type and size. -/
structure FileInfo where
  name : List Char
  mimeType : List Char
  size : ℕ
deriving DecidableEq, Repr

/-- The component state managed by the three useState hooks in App.js. -/
structure AppState where
  file : Option FileInfo
  isLoading : Bool
  dragOver : Bool
deriving DecidableEq, Repr

/-- The observable side effects of the handlers. -/
inductive UiEffect
  | alert (message : List Char)
  | fetchUpload (f : FileInfo)
deriving DecidableEq, Repr

/-- The MIME type accepted by both file handlers. -/
def pdfMime : List Char := str "application/pdf"

/-- Embedded from App.js handleDrop: clear dragOver, then accept the
dropped file only when it is present and declared application/pdf;
otherwise alert and leave the selected file unchanged. -/
def handleDrop (s : AppState) (dropped : Option FileInfo) : AppState × List UiEffect :=
  match dropped with
  | some f =>
    if f.mimeType = pdfMime then
      ({ s with dragOver := false, file := some f }, [])
    else
      ({ s with dragOver := false }, [.alert (str "Please drop a PDF file")])
  | none => ({ s with dragOver := false }, [.alert (str "Please drop a PDF file")])

/-- Embedded from App.js handleFileInput: accept the chosen file only when
it is present and declared application/pdf; otherwise alert and leave the
selected file unchanged. -/
def handleFileInput (s : AppState) (selected : Option FileInfo) : AppState × List UiEffect :=
  match selected with
  | some f =>
    if f.mimeType = pdfMime then
      ({ s with file := some f }, [])
    else
      (s, [.alert (str "Please select a PDF file")])
  | none => (s, [.alert (str "Please select a PDF file")])

/-- Whether an optional file is present with the exact declared MIME type
application/pdf. -/
def isPdfFile : Option FileInfo → Bool
  | some f => f.mimeType = pdfMime
  | none => false

/-- Embedded from App.js handleUpload (synchronous prefix): with no file
selected it returns at once — no state change and no network request;
with a file it sets isLoading and issues the upload request. -/
def handleUpload (s : AppState) : AppState × List UiEffect :=
  match s.file with
  | none => (s, [])
  | some f => ({ s with isLoading := true }, [.fetchUpload f])

/-! ### Sample data used by the witnesses -/

/-- A concrete candidate record that passes every validation rule. -/
def sampleCandidate : CandidateRecord where
  customer_id := str "1234567890"
  company_name := str "Acme Farms"
  ship_to_address_lines := [str "123 Main St"]
  city := str "Montreal"
  province := str "QC"
  postal_code := str "h2x1y4"
  phone := str "(514) 555-1234"
  quantity := 3
  service_type := str "UPS Standard"

/-- A concrete validated record with quantity 3. -/
def sampleValidated : ValidatedRecord where
  customer_id := str "1234567890"
  company_name := str "Acme Farms"
  ship_to_address_lines := [str "123 Main St"]
  city := str "Montreal"
  province := str "QC"
  postal_code := str "H2X 1Y4"
  phone := str "5145551234"
  quantity := 3
  service_type := str "UPS Standard"

/-! ## Theorems -/

theorem toNat_ofNat_small (n : Nat) (h : n < 55296) : (Char.ofNat n).toNat = n := by
  have hv : n.isValidChar := Or.inl h
  simp [Char.ofNat, hv, Char.ofNatAux, Char.toNat, UInt32.toNat, BitVec.toNat_ofNatLt]

theorem upChar_toNat (c : Char) :
    (upChar c).toNat =
      if 97 ≤ c.toNat ∧ c.toNat ≤ 122 then c.toNat - 32 else c.toNat := by
  unfold upChar
  by_cases h : 97 ≤ c.toNat ∧ c.toNat ≤ 122
  · rw [if_pos h, if_pos h, toNat_ofNat_small]
    omega
  · rw [if_neg h, if_neg h]

theorem upChar_eq_self_of_toNat_lt (c : Char) (h : c.toNat < 97) : upChar c = c := by
  unfold upChar
  rw [if_neg]
  omega

theorem upChar_eq_self_of_not_lower (c : Char)
    (h : ¬(97 ≤ c.toNat ∧ c.toNat ≤ 122)) : upChar c = c := by
  unfold upChar
  rw [if_neg h]

theorem isSpaceC_upChar (c : Char) : isSpaceC (upChar c) = isSpaceC c := by
  by_cases h : 97 ≤ c.toNat ∧ c.toNat ≤ 122
  · have hl : isSpaceC (upChar c) = false := by
      simp only [isSpaceC, upChar_toNat c, if_pos h, Bool.or_eq_false_iff,
        decide_eq_false_iff_not]
      omega
    have hr : isSpaceC c = false := by
      simp only [isSpaceC, Bool.or_eq_false_iff, decide_eq_false_iff_not]
      omega
    rw [hl, hr]
  · rw [upChar_eq_self_of_not_lower c h]

theorem upChar_idem (c : Char) : upChar (upChar c) = upChar c := by
  by_cases hc : 97 ≤ c.toNat ∧ c.toNat ≤ 122
  · have h := upChar_toNat c
    rw [if_pos hc] at h
    exact upChar_eq_self_of_toNat_lt _ (by omega)
  · have h := upChar_eq_self_of_not_lower c hc
    rw [h]
    exact h

theorem mem_normalizePostal_not_space (s : List Char) (c : Char)
    (h : c ∈ normalizePostal s) : isSpaceC c = false := by
  unfold normalizePostal at h
  have := List.of_mem_filter h
  simpa using this

theorem matchesPostalRegex_eq_shape (l : List Char)
    (h : ∀ c ∈ l, isSpaceC c = false) :
    matchesPostalRegex l = isPostalShape l := by
  match l with
  | [] => rfl
  | [a] => rfl
  | [a, b] => rfl
  | [a, b, c] => rfl
  | [a, b, c, d] => rfl
  | [a, b, c, d, e] => rfl
  | [a, b, c, d, e, f] => rfl
  | [a, b, c, w, d, e, f] =>
    have hw : isSpaceC w = false := h w (by simp)
    simp [matchesPostalRegex, isPostalShape, hw]
  | a :: b :: c :: w :: d :: e :: f :: g :: rest => rfl

theorem normalizePostal_map_upChar (s : List Char) :
    normalizePostal (s.map upChar) = normalizePostal s := by
  unfold normalizePostal
  rw [List.map_map]
  have : upChar ∘ upChar = upChar := by
    funext c
    exact upChar_idem c
  rw [this]

theorem normalizePostal_filter_space (s : List Char) :
    normalizePostal (s.filter (fun c => !(isSpaceC c))) = normalizePostal s := by
  unfold normalizePostal
  induction s with
  | nil => rfl
  | cons x xs ih =>
    by_cases hx : isSpaceC x = true
    · have hux : isSpaceC (upChar x) = true := by rw [isSpaceC_upChar]; exact hx
      simp [hx, hux, ih]
    · have hx' : isSpaceC x = false := Bool.eq_false_iff.mpr hx
      have hux : isSpaceC (upChar x) = false := by rw [isSpaceC_upChar]; exact hx'
      simp [hx', hux, ih]

theorem isAZ_bounds (c : Char) (h : isAZ c = true) : 65 ≤ c.toNat ∧ c.toNat ≤ 90 := by
  simpa [isAZ] using h

theorem isDigitC_bounds (c : Char) (h : isDigitC c = true) :
    48 ≤ c.toNat ∧ c.toNat ≤ 57 := by
  simpa [isDigitC] using h

theorem upChar_of_isAZ (c : Char) (h : isAZ c = true) : upChar c = c := by
  have := isAZ_bounds c h
  exact upChar_eq_self_of_toNat_lt c (by omega)

theorem upChar_of_isDigitC (c : Char) (h : isDigitC c = true) : upChar c = c := by
  have := isDigitC_bounds c h
  exact upChar_eq_self_of_toNat_lt c (by omega)

theorem notSpace_of_isAZ (c : Char) (h : isAZ c = true) : isSpaceC c = false := by
  have := isAZ_bounds c h
  simp only [isSpaceC, Bool.or_eq_false_iff, decide_eq_false_iff_not]
  omega

theorem notSpace_of_isDigitC (c : Char) (h : isDigitC c = true) : isSpaceC c = false := by
  have := isDigitC_bounds c h
  simp only [isSpaceC, Bool.or_eq_false_iff, decide_eq_false_iff_not]
  omega

theorem upChar_space : upChar ' ' = ' ' := by decide

theorem isSpaceC_space : isSpaceC ' ' = true := by decide

theorem validatePostalCode_renderPostal (l : List Char) (h : isPostalShape l = true) :
    validatePostalCode (renderPostal l) = some (renderPostal l) := by
  match l with
  | [] => exact absurd h (by simp [isPostalShape])
  | [a] => exact absurd h (by simp [isPostalShape])
  | [a, b] => exact absurd h (by simp [isPostalShape])
  | [a, b, c] => exact absurd h (by simp [isPostalShape])
  | [a, b, c, d] => exact absurd h (by simp [isPostalShape])
  | [a, b, c, d, e] => exact absurd h (by simp [isPostalShape])
  | a :: b :: c :: d :: e :: f :: g :: rest => exact absurd h (by simp [isPostalShape])
  | [a, b, c, d, e, f] =>
    simp only [isPostalShape, Bool.and_eq_true] at h
    obtain ⟨⟨⟨⟨⟨ha, hb⟩, hc⟩, hd⟩, he⟩, hf⟩ := h
    have hnorm : normalizePostal (renderPostal [a, b, c, d, e, f]) = [a, b, c, d, e, f] := by
      unfold renderPostal normalizePostal
      simp [upChar_of_isAZ a ha, upChar_of_isDigitC b hb, upChar_of_isAZ c hc,
        upChar_of_isDigitC d hd, upChar_of_isAZ e he, upChar_of_isDigitC f hf,
        upChar_space, isSpaceC_space,
        notSpace_of_isAZ a ha, notSpace_of_isDigitC b hb, notSpace_of_isAZ c hc,
        notSpace_of_isDigitC d hd, notSpace_of_isAZ e he, notSpace_of_isDigitC f hf]
    have hshape : isPostalShape [a, b, c, d, e, f] = true := by
      simp [isPostalShape, ha, hb, hc, hd, he, hf]
    unfold validatePostalCode
    rw [hnorm, if_pos hshape]

theorem validatePostalCode_idem (s r : List Char)
    (h : validatePostalCode s = some r) : validatePostalCode r = some r := by
  unfold validatePostalCode at h
  by_cases hs : isPostalShape (normalizePostal s) = true
  · rw [if_pos hs] at h
    have hr : renderPostal (normalizePostal s) = r := by
      exact Option.some.inj h
    rw [← hr]
    exact validatePostalCode_renderPostal (normalizePostal s) hs
  · rw [if_neg hs] at h
    exact absurd h (by simp)

theorem validatePostalCode_isSome_eq_shape (s : List Char) :
    (validatePostalCode s).isSome = isPostalShape (normalizePostal s) := by
  unfold validatePostalCode
  by_cases h : isPostalShape (normalizePostal s) = true
  · rw [if_pos h, h]
    rfl
  · rw [if_neg h, Bool.eq_false_iff.mpr h]
    rfl

/-- C4: the Validator accepts a candidate postal_code string if and only
if, after normalizing whitespace and case, it matches the anchored
Canadian pattern letter digit letter, optional space, digit letter digit;
every non-matching string is rejected.  The record-level postal check
agrees with the string-level validator. -/
theorem postal_accept_iff_regex :
    (∀ s : List Char,
      (validatePostalCode s).isSome = matchesPostalRegex (normalizePostal s)) ∧
    (∀ s : List Char, matchesPostalRegex (normalizePostal s) = false →
      validatePostalCode s = none) ∧
    (∀ r : CandidateRecord,
      fieldOK r .postal_code = (validatePostalCode r.postal_code).isSome) := by
  have key : ∀ s : List Char,
      (validatePostalCode s).isSome = matchesPostalRegex (normalizePostal s) := by
    intro s
    rw [validatePostalCode_isSome_eq_shape,
      matchesPostalRegex_eq_shape (normalizePostal s)
        (fun c hc => mem_normalizePostal_not_space s c hc)]
  refine ⟨key, ?_, ?_⟩
  · intro s h
    have := key s
    rw [h] at this
    exact Option.not_isSome_iff_eq_none.mp (by simp [this])
  · intro r
    rw [validatePostalCode_isSome_eq_shape]
    rfl

theorem postal_accept_iff_regex_witness :
    matchesPostalRegex (normalizePostal (str "123456")) = false ∧
    validatePostalCode (str "123456") = none :=
  ⟨by decide, postal_accept_iff_regex.2.1 (str "123456") (by decide)⟩

/-- C5: postal-code validation is insensitive to letter case and to the
presence of the internal separating space, maps every accepted variant to
the one canonical form (h2x1y4 normalizes to H2X 1Y4), and is idempotent:
validating an already-validated value yields the same value. -/
theorem postal_case_space_insensitive_idem :
    validatePostalCode (str "h2x1y4") = some (str "H2X 1Y4") ∧
    (∀ s t : List Char, s.map upChar = t.map upChar →
      validatePostalCode s = validatePostalCode t) ∧
    (∀ s : List Char,
      validatePostalCode (s.filter (fun c => !(isSpaceC c))) = validatePostalCode s) ∧
    (∀ s r : List Char, validatePostalCode s = some r →
      validatePostalCode r = some r) := by
  refine ⟨by decide, ?_, ?_, validatePostalCode_idem⟩
  · intro s t h
    unfold validatePostalCode
    rw [← normalizePostal_map_upChar s, h, normalizePostal_map_upChar t]
  · intro s
    unfold validatePostalCode
    rw [normalizePostal_filter_space s]

theorem postal_case_space_insensitive_idem_witness :
    (str "h2x 1Y4").map upChar = (str "H2X 1y4").map upChar ∧
    validatePostalCode (str "h2x 1Y4") = validatePostalCode (str "H2X 1y4") ∧
    validatePostalCode (str "h2x1y4") = some (str "H2X 1Y4") ∧
    validatePostalCode (str "H2X 1Y4") = some (str "H2X 1Y4") :=
  ⟨by decide,
   postal_case_space_insensitive_idem.2.1 (str "h2x 1Y4") (str "H2X 1y4") (by decide),
   by decide,
   postal_case_space_insensitive_idem.2.2.2 (str "h2x1y4") (str "H2X 1Y4") (by decide)⟩

/-- C1: derive is a total (never-failing) function that extends the
validated record with packages equal to twice the quantity and
total_weight_kg equal to packages times 4.5 (exactly 9/2 as a rational);
the two derived fields are an exact function of the quantity and are
never set independently of it, and quantity 3 yields packages 6 and
total_weight_kg 27. -/
theorem derive_pure_function_of_quantity :
    (∀ v : ValidatedRecord,
      (derive v).packages = 2 * v.quantity ∧
      (derive v).total_weight_kg = ((derive v).packages : ℚ) * (9 / 2) ∧
      (derive v).toValidatedRecord = v) ∧
    (∀ v w : ValidatedRecord, v.quantity = w.quantity →
      (derive v).packages = (derive w).packages ∧
      (derive v).total_weight_kg = (derive w).total_weight_kg) ∧
    (∀ v : ValidatedRecord, v.quantity = 3 →
      (derive v).packages = 6 ∧ (derive v).total_weight_kg = 27) := by
  refine ⟨?_, ?_, ?_⟩
  · intro v
    refine ⟨rfl, rfl, rfl⟩
  · intro v w h
    constructor
    · simp [derive, h]
    · simp [derive, h]
  · intro v h
    constructor
    · simp [derive, packagesPerQuantity, h]
    · simp [derive, packagesPerQuantity, kgPerPackage, h]
      norm_num

theorem derive_pure_function_of_quantity_witness :
    sampleValidated.quantity = 3 ∧
    (derive sampleValidated).packages = 6 ∧
    (derive sampleValidated).total_weight_kg = 27 :=
  ⟨rfl, derive_pure_function_of_quantity.2.2 sampleValidated rfl⟩

/-- C2: every failing upload is answered with a non-200 status and an
error body in the one consistent format: a JSON object carrying a single
error field, for every failure class alike — never plain text for one
class and JSON for another. -/
theorem error_responses_consistent_json :
    ∀ e : PipelineError,
      (respond (Except.error e)).status ≠ 200 ∧
      (respond (Except.error e)).body = HttpBody.jsonError (errorMessage e) := by
  intro e
  cases e <;> exact ⟨by simp [respond, httpStatus], rfl⟩

/-- C6: the CSV assembler emits the fixed header followed by exactly one
data row per input record, so the row count equals the input count; for
the empty input the output is exactly the header row with no trailing
rows. -/
theorem assemble_row_counts :
    assemble [] = [csvHeader] ∧
    (∀ ds : List DerivedRecord,
      (assemble ds).length = ds.length + 1 ∧
      (assemble ds).head? = some csvHeader ∧
      (assemble ds).tail = ds.map recordRow ∧
      (assemble ds).tail.length = ds.length) := by
  refine ⟨rfl, ?_⟩
  intro ds
  refine ⟨?_, rfl, rfl, ?_⟩ <;> simp [assemble]

/-- C3: when M of the N candidates ultimately pass validation (including
the bounded per-record retry) and M is positive, the request succeeds and
the CSV carries exactly M data rows, with M at most N; when zero pass,
the whole request fails with NoValidRecordsError, a 4xx-class user error
distinct from a 5xx infrastructure failure. -/
theorem pipeline_partial_success_policy :
    ∀ (retryFix : CandidateRecord → FieldValidationError → CandidateRecord)
      (cs : List CandidateRecord),
      (cs.filterMap (processCandidate retryFix)).length ≤ cs.length ∧
      (0 < (cs.filterMap (processCandidate retryFix)).length →
        ∃ doc, runPipeline retryFix cs = Except.ok doc ∧
          doc.tail.length = (cs.filterMap (processCandidate retryFix)).length) ∧
      ((cs.filterMap (processCandidate retryFix)).length = 0 →
        runPipeline retryFix cs = Except.error PipelineError.noValidRecords ∧
        400 ≤ httpStatus PipelineError.noValidRecords ∧
        httpStatus PipelineError.noValidRecords < 500) := by
  intro retryFix cs
  refine ⟨List.length_filterMap_le _ _, ?_, ?_⟩
  · intro hpos
    cases hv : cs.filterMap (processCandidate retryFix) with
    | nil => rw [hv] at hpos; exact absurd hpos (by simp)
    | cons v vs =>
      refine ⟨assemble ((v :: vs).map derive), ?_, ?_⟩
      · unfold runPipeline
        rw [hv]
      · simp [assemble]
  · intro hzero
    have hv : cs.filterMap (processCandidate retryFix) = [] :=
      List.length_eq_zero.mp hzero
    refine ⟨?_, by simp [httpStatus], by simp [httpStatus]⟩
    unfold runPipeline
    rw [hv]

theorem pipeline_partial_success_policy_witness :
    0 < (([sampleCandidate]).filterMap (processCandidate (fun c _ => c))).length ∧
    ∃ doc, runPipeline (fun c _ => c) [sampleCandidate] = Except.ok doc ∧
      doc.tail.length =
        (([sampleCandidate]).filterMap (processCandidate (fun c _ => c))).length :=
  ⟨by decide, (pipeline_partial_success_policy (fun c _ => c) [sampleCandidate]).2.1 (by decide)⟩

/-- C9: in both handleDrop and handleFileInput (identical in both App.js
variants), the selected-file state is updated exactly when a file is
present with declared MIME type application/pdf; otherwise the
selected-file state is left unchanged (and isLoading is never touched). -/
theorem file_selection_requires_pdf :
    ∀ (s : AppState) (d : Option FileInfo),
      ((handleDrop s d).1.file = if isPdfFile d then d else s.file) ∧
      ((handleDrop s d).1.isLoading = s.isLoading) ∧
      ((handleFileInput s d).1.file = if isPdfFile d then d else s.file) ∧
      ((handleFileInput s d).1.isLoading = s.isLoading) := by
  intro s d
  cases d with
  | none => simp [handleDrop, handleFileInput, isPdfFile]
  | some f =>
    by_cases h : f.mimeType = pdfMime <;>
      simp [handleDrop, handleFileInput, isPdfFile, h]

/-- C10: with no file selected, handleUpload returns immediately — the
state (including isLoading) is unchanged and no effect, in particular no
network request, is issued. -/
theorem upload_noop_without_file :
    ∀ s : AppState, s.file = none → handleUpload s = (s, []) := by
  intro s h
  unfold handleUpload
  rw [h]

theorem upload_noop_without_file_witness :
    (AppState.mk none false false).file = none ∧
    handleUpload (AppState.mk none false false) = (AppState.mk none false false, []) :=
  ⟨rfl, upload_noop_without_file (AppState.mk none false false) rfl⟩

theorem attemptExtraction_congr (oracle oracle' : ℕ → CollabResponse) :
    ∀ (n a : ℕ), (∀ i, a ≤ i → i ≤ a + n → oracle i = oracle' i) →
      attemptExtraction oracle a n = attemptExtraction oracle' a n := by
  intro n
  induction n with
  | zero =>
    intro a h
    have h0 : oracle a = oracle' a := h a le_rfl (by omega)
    unfold attemptExtraction
    rw [h0]
  | succ n ih =>
    intro a h
    have h0 : oracle a = oracle' a := h a le_rfl (by omega)
    unfold attemptExtraction
    rw [h0]
    cases oracle' a with
    | parsed cs => rfl
    | malformed r =>
      exact ih (a + 1) (fun i hi1 hi2 => h i (by omega) (by omega))

theorem attemptExtraction_all_malformed (oracle : ℕ → CollabResponse)
    (h : ∀ i, ∃ r, oracle i = CollabResponse.malformed r) :
    ∀ (n a : ℕ), ∃ r, attemptExtraction oracle a n = Except.error r := by
  intro n
  induction n with
  | zero =>
    intro a
    obtain ⟨r, hr⟩ := h a
    refine ⟨r, ?_⟩
    unfold attemptExtraction
    rw [hr]
  | succ n ih =>
    intro a
    obtain ⟨r, hr⟩ := h a
    obtain ⟨r2, hr2⟩ := ih (a + 1)
    refine ⟨r2, ?_⟩
    unfold attemptExtraction
    rw [hr]
    exact hr2

/-- C8: the orchestrator's retry behavior is a bounded loop, not
unbounded recursion.  Document-level extraction consults the collaborator
only on attempts 0 through maxExtractionRetries (initial call plus at
most 2 retries) — its outcome is unchanged by what any later attempt
would return — and when every attempt is unparseable the ExtractionError
reason is surfaced; finally, a record failing validation is retried at
most once more (2 validation attempts total), so processCandidate is
determined by a single consultation of the retry collaborator.  All three
functions are total Lean functions defined by structural recursion, so
extraction terminates on every input. -/
theorem extraction_retry_bounded :
    (∀ oracle oracle' : ℕ → CollabResponse,
      (∀ i, i ≤ maxExtractionRetries → oracle i = oracle' i) →
      extract_records oracle = extract_records oracle') ∧
    (∀ oracle : ℕ → CollabResponse,
      (∀ i, ∃ r, oracle i = CollabResponse.malformed r) →
      ∃ r, extract_records oracle = Except.error r) ∧
    (∀ (retryFix retryFix' : CandidateRecord → FieldValidationError → CandidateRecord)
      (c : CandidateRecord),
      (∀ e, retryFix c e = retryFix' c e) →
      processCandidate retryFix c = processCandidate retryFix' c) := by
  refine ⟨?_, ?_, ?_⟩
  · intro oracle oracle' h
    exact attemptExtraction_congr oracle oracle' maxExtractionRetries 0
      (fun i hi1 hi2 => h i (by omega))
  · intro oracle h
    exact attemptExtraction_all_malformed oracle h maxExtractionRetries 0
  · intro retryFix retryFix' c h
    unfold processCandidate
    cases validate c with
    | ok v => rfl
    | error e => simp only [h e]

theorem extraction_retry_bounded_witness :
    (∀ i, i ≤ maxExtractionRetries →
      (fun _ => CollabResponse.malformed (str "bad json")) i =
        (fun j => if j ≤ 2 then CollabResponse.malformed (str "bad json")
          else CollabResponse.parsed []) i) ∧
    extract_records (fun _ => CollabResponse.malformed (str "bad json")) =
      extract_records (fun j => if j ≤ 2 then CollabResponse.malformed (str "bad json")
        else CollabResponse.parsed []) ∧
    ∃ r, extract_records (fun _ => CollabResponse.malformed (str "bad json")) =
      Except.error r :=
  ⟨fun i hi => by
      have hi2 : i ≤ 2 := hi
      simp [hi2],
   extraction_retry_bounded.1 _ _ (fun i hi => by
      have hi2 : i ≤ 2 := hi
      simp [hi2]),
   extraction_retry_bounded.2.1 _ (fun i => ⟨str "bad json", rfl⟩)⟩

/-- C7: on any candidate record with at least one invalid field, validate
fails with a single FieldValidationError naming exactly the first failing
field in the fixed order customer_id, ship_to_address_lines, postal_code,
province, phone, quantity (the Except result carries one error, never an
aggregate), and when no field fails it succeeds. -/
theorem validate_fail_fast_first_field :
    ∀ r : CandidateRecord,
      (∀ f : FieldName,
        checkOrder.find? (fun g => !(fieldOK r g)) = some f →
        ∃ reason, validate r = Except.error ⟨f, reason⟩) ∧
      (checkOrder.find? (fun g => !(fieldOK r g)) = none →
        ∃ v, validate r = Except.ok v) := by
  intro r
  cases h1 : checkCustomerId r <;>
  cases h2 : checkAddress r <;>
  cases h3 : checkPostal r <;>
  cases h4 : checkProvince r <;>
  cases h5 : checkPhone r <;>
  cases h6 : checkQuantity r <;>
    (refine ⟨fun f hf => ?_, fun hn => ?_⟩ <;>
      simp_all [checkOrder, List.find?, fieldOK, validate])

theorem validate_fail_fast_first_field_witness :
    checkOrder.find?
      (fun g => !(fieldOK { sampleCandidate with customer_id := str "123" } g)) =
      some FieldName.customer_id ∧
    ∃ reason, validate { sampleCandidate with customer_id := str "123" } =
      Except.error ⟨FieldName.customer_id, reason⟩ :=
  ⟨by decide,
   (validate_fail_fast_first_field { sampleCandidate with customer_id := str "123" }).1
     FieldName.customer_id (by decide)⟩

end PackingSlip
